import Mathlib

set_option linter.unusedVariables false
set_option linter.unnecessarySimpa false

/-!
Verification of the parcel change-detection core of this repository
(`scripts/detect_changes.py`): the snapshot indexer, the diff engine,
the watchlist filter and the run orchestrator, embedded shallowly in Lean.

Modelling conventions:
* Parsed JSON values are the inductive `Json`; numbers are modelled as
  integers (no claim depends on float formatting), and object fields are
  an insertion-ordered association list, exactly as Python dicts are.
* Python equality `==` on parsed values (order-insensitive on dicts,
  `True == 1`) is modelled by `pyEq`; Python truthiness by `isFalsy`;
  Python `str()` by `pyStr`.
* `json.dumps(x, sort_keys=True, separators=(",", ":"))` emits every
  object's fields in sorted key order with no whitespace: it is modelled
  as `plainDumps (canon x)`, where `canon` recursively sorts object
  fields by key and `plainDumps` serializes in field order.
* The SHA-1 primitive of `hashlib` is external library code; the
  development is parametric in the digest function `sha1 : String → String`
  applied to the canonical serialization.
-/

namespace DetectChanges

/-- A parsed JSON value (the result of `json.loads`). Object fields are kept
in insertion order like Python dicts. -/
inductive Json where
  | null
  | bool (b : Bool)
  | num (n : Int)
  | str (s : String)
  | arr (items : List Json)
  | obj (fields : List (String × Json))

/-- Python truthiness on parsed JSON values (`if not parcel_id`). -/
def isFalsy : Json → Bool
  | .null => true
  | .bool b => !b
  | .num n => n == 0
  | .str s => s == ""
  | .arr xs => xs.isEmpty
  | .obj fs => fs.isEmpty

mutual
/-- Python `repr` on parsed JSON values. Control-character and quote
escaping inside strings is elided; no claim depends on those bytes. -/
def pyRepr : Json → String
  | .null => "None"
  | .bool true => "True"
  | .bool false => "False"
  | .num n => toString n
  | .str s => "'" ++ s ++ "'"
  | .arr xs => "[" ++ pyReprList xs ++ "]"
  | .obj fs => "\x7b" ++ pyReprFields fs ++ "\x7d"

def pyReprList : List Json → String
  | [] => ""
  | [x] => pyRepr x
  | x :: y :: xs => pyRepr x ++ ", " ++ pyReprList (y :: xs)

def pyReprFields : List (String × Json) → String
  | [] => ""
  | [(k, v)] => "'" ++ k ++ "': " ++ pyRepr v
  | (k, v) :: q :: fs => "'" ++ k ++ "': " ++ pyRepr v ++ ", " ++ pyReprFields (q :: fs)
end

/-- Python `str()` on a parsed JSON value: identity on strings, `repr`
otherwise (which agrees with `str` on numbers, booleans and `None`). -/
def pyStr : Json → String
  | .str s => s
  | g => pyRepr g

mutual
/-- Python `==` on parsed JSON values: dict comparison ignores field
order (same keys, equal values), and `True == 1`, `False == 0`. -/
def pyEq : Json → Json → Bool
  | .null, .null => true
  | .bool a, .bool b => a == b
  | .bool a, .num b => (if a then (1 : Int) else 0) == b
  | .num a, .bool b => a == (if b then (1 : Int) else 0)
  | .num a, .num b => a == b
  | .str a, .str b => a == b
  | .arr xs, .arr ys => pyEqList xs ys
  | .obj fs, .obj gs => fs.length == gs.length && pyEqFields gs fs
  | _, _ => false

def pyEqList : List Json → List Json → Bool
  | [], [] => true
  | x :: xs, y :: ys => pyEq x y && pyEqList xs ys
  | _, _ => false

def pyEqFields (gs : List (String × Json)) : List (String × Json) → Bool
  | [] => true
  | (k, v) :: fs =>
    (match gs.lookup k with
     | some w => pyEq v w
     | none => false) && pyEqFields gs fs
end

/-- Lexicographic strict order on code-point lists: the order Python uses
to compare strings. -/
def charListLt : List Char → List Char → Bool
  | _, [] => false
  | [], _ :: _ => true
  | c :: cs, d :: ds => c < d || (c == d && charListLt cs ds)

/-- Python string `<` (lexicographic over code points), as `sorted()` uses. -/
def strLt (a b : String) : Bool := charListLt a.data b.data

/-- Reflexive closure of `strLt`: the total preorder the sorts run on. -/
def strLE (a b : String) : Bool := strLt a b || a == b

/-- `strLE` as a relation, for `List.insertionSort` and `List.Sorted`. -/
def strLEr (a b : String) : Prop := strLE a b = true

instance : DecidableRel strLEr := fun _ _ => inferInstanceAs (Decidable (_ = true))

/-- `strLt` as a relation: strict lexicographic Key order. -/
def strLtr (a b : String) : Prop := strLt a b = true

/-- The relation on object fields that `sort_keys=True` sorts by: key order only. -/
def keyLE (p q : String × Json) : Prop := strLEr p.1 q.1

instance : DecidableRel keyLE := fun _ _ => inferInstanceAs (Decidable (_ = true))

/-- The strict key order on object fields, used to show sorted field lists
with duplicate-free keys are unique. -/
def keyLT (p q : String × Json) : Prop := strLtr p.1 q.1

/-- Sort an object's field list by key (the order `sort_keys=True` emits). -/
def sortFields (fs : List (String × Json)) : List (String × Json) :=
  List.insertionSort keyLE fs

mutual
/-- Recursively put every object's field list into sorted key order;
composing with `plainDumps` yields `json.dumps(·, sort_keys=True)`. -/
def canon : Json → Json
  | .null => .null
  | .bool b => .bool b
  | .num n => .num n
  | .str s => .str s
  | .arr xs => .arr (canonList xs)
  | .obj fs => .obj (sortFields (canonFields fs))

def canonList : List Json → List Json
  | [] => []
  | x :: xs => canon x :: canonList xs

def canonFields : List (String × Json) → List (String × Json)
  | [] => []
  | (k, v) :: fs => (k, canon v) :: canonFields fs
end

mutual
/-- JSON serialization in field order with separators `(",", ":")` and no
whitespace. String escaping is elided; no claim depends on those bytes. -/
def plainDumps : Json → String
  | .null => "null"
  | .bool true => "true"
  | .bool false => "false"
  | .num n => toString n
  | .str s => "\"" ++ s ++ "\""
  | .arr xs => "[" ++ plainDumpsList xs ++ "]"
  | .obj fs => "\x7b" ++ plainDumpsFields fs ++ "\x7d"

def plainDumpsList : List Json → String
  | [] => ""
  | [x] => plainDumps x
  | x :: y :: xs => plainDumps x ++ "," ++ plainDumpsList (y :: xs)

def plainDumpsFields : List (String × Json) → String
  | [] => ""
  | [(k, v)] => "\"" ++ k ++ "\":" ++ plainDumps v
  | (k, v) :: q :: fs => "\"" ++ k ++ "\":" ++ plainDumps v ++ "," ++ plainDumpsFields (q :: fs)
end

/-- `json.dumps(x, sort_keys=True, separators=(",", ":"))`. -/
def dumps (g : Json) : String := plainDumps (canon g)

/-- `sorted(s)` for a set `s` of strings: the distinct members in
lexicographic order. -/
def sortedSet (l : List String) : List String :=
  List.insertionSort strLEr l.dedup

/-- The fixed attribute list `COMPARE_FIELDS` of `detect_changes.py`. -/
def COMPARE_FIELDS : List String :=
  ["STREET", "CITY_STATE", "ZIPCODE", "PROP_STREET", "PROP_CITY", "PROP_ZIP", "NAME_ONE"]

/-- One GeoJSON feature: its `geometry` payload (absent modelled as `null`,
as `feature.get("geometry")` yields `None`) and its property mapping. -/
structure Feature where
  geometry : Json
  properties : List (String × Json)

/-- A parsed feature collection (`geojson.get("features", [])`). -/
structure GeoJson where
  features : List Feature

/-- `props.get(k)`: Python returns `None` both for a missing key and for a
stored JSON `null`, so both are modelled as `Json.null`. -/
def pget (props : List (String × Json)) (k : String) : Json :=
  (props.lookup k).getD Json.null

/-- `geometry_hash` of `detect_changes.py`, parametric in the SHA-1
primitive applied to the canonical serialization of the geometry. -/
def geometry_hash (sha1 : String → String) (feature : Feature) : String :=
  sha1 (dumps feature.geometry)

/-- The per-entity snapshot record built by `to_index`. -/
structure Fingerprint where
  parcel_id : String
  geometry_hash : String
  properties : List (String × Json)

/-- A keyed snapshot: the dict `Key → Fingerprint`, insertion-ordered. -/
abbrev Index := List (String × Fingerprint)

/-- Python dict assignment `index[k] = v`: overwrite in place if the key is
present (keeping its position), else append. -/
def setKey (idx : Index) (k : String) (v : Fingerprint) : Index :=
  if (idx.lookup k).isSome then idx.map (fun p => if p.1 = k then (k, v) else p)
  else idx ++ [(k, v)]

/-- The feature loop of `to_index`, threading the dict being built. -/
def to_index_aux (sha1 : String → String) : List Feature → Index → Index
  | [], idx => idx
  | ft :: rest, idx =>
    let props := ft.properties
    let parcel_id := pget props "PARCEL_ID"
    if isFalsy parcel_id then to_index_aux sha1 rest idx
    else
      to_index_aux sha1 rest (setKey idx (pyStr parcel_id)
        { parcel_id := pyStr parcel_id,
          geometry_hash := geometry_hash sha1 ft,
          properties := COMPARE_FIELDS.map (fun k => (k, pget props k)) })

/-- `to_index` of `detect_changes.py`. -/
def to_index (sha1 : String → String) (geojson : GeoJson) : Index :=
  to_index_aux sha1 geojson.features []

/-- The key set of a snapshot (`previous.keys()`). -/
def keys (idx : Index) : List String := idx.map Prod.fst

/-- One `modified` entry: a parcel id with its recorded field differences,
each difference carrying the before and after values. -/
structure Changed where
  parcel_id : String
  changes : List (String × Json × Json)

/-- The `field_changes` dict built for one key present in both snapshots:
the `geometry` pseudo-field first if the digests differ, then each
attribute of `COMPARE_FIELDS` in list order whose values differ. -/
def fieldChanges (prev curr : Fingerprint) : List (String × Json × Json) :=
  (if prev.geometry_hash ≠ curr.geometry_hash
   then [("geometry", Json.str prev.geometry_hash, Json.str curr.geometry_hash)]
   else [])
  ++ COMPARE_FIELDS.filterMap (fun k =>
      if pyEq (pget prev.properties k) (pget curr.properties k)
      then none
      else some (k, pget prev.properties k, pget curr.properties k))

/-- `compare` of `detect_changes.py`: `(added, removed, changed)`. The
match's catch-all arm is unreachable, as the iteration ranges over keys
present in both snapshots. -/
def compare (previous current : Index) : List String × List String × List Changed :=
  let prev_ids := keys previous
  let curr_ids := keys current
  let added := sortedSet (curr_ids.filter (fun k => !prev_ids.contains k))
  let removed := sortedSet (prev_ids.filter (fun k => !curr_ids.contains k))
  let changed := (sortedSet (prev_ids.filter (fun k => curr_ids.contains k))).filterMap
    (fun pid =>
      match previous.lookup pid, current.lookup pid with
      | some prev, some curr =>
        let fc := fieldChanges prev curr
        if fc.isEmpty then none else some { parcel_id := pid, changes := fc }
      | _, _ => none)
  (added, removed, changed)

/-- `filter_to_watchlist` of `detect_changes.py`. The watchlist set is
modelled as a duplicate-free list; an empty watchlist disables filtering. -/
def filter_to_watchlist (added removed : List String) (changed : List Changed)
    (watchlist : List String) : List String × List String × List Changed :=
  if watchlist.isEmpty then (added, removed, changed)
  else
    (added.filter (fun pid => watchlist.contains pid),
     removed.filter (fun pid => watchlist.contains pid),
     changed.filter (fun entry => watchlist.contains entry.parcel_id))

/-- `load_watchlist`: strip each line, drop blanks and `#` comments, and
collect the rest as a set (modelled as the duplicate-free list). -/
def load_watchlist (c : Option (List String)) : List String :=
  match c with
  | none => []
  | some lines =>
    ((lines.map (fun raw => raw.trim)).filter
      (fun line => !(line == "" || line.startsWith "#"))).dedup

/-- Contents of a file as far as the run is concerned: a parseable feature
collection, or text `json.loads` rejects. -/
inductive FileContent where
  | geo (g : GeoJson)
  | bad

/-- `load_geojson`: a missing file is an empty feature collection, a
malformed file raises (`Except.error`). -/
def load_geojson (c : Option FileContent) : Except Unit GeoJson :=
  match c with
  | none => Except.ok { features := [] }
  | some (.geo g) => Except.ok g
  | some .bad => Except.error ()

/-- The `scope` block of the summary (the file path entry is omitted). -/
structure Scope where
  watchlist_enabled : Bool
  watchlist_size : Nat

/-- The `stats` block of the summary; fields absent from the initialization
summary are `Option`. -/
structure Stats where
  current_total : Nat
  previous_total : Option Nat
  added_count : Nat
  removed_count : Nat
  changed_count : Nat
  all_added_count : Option Nat
  all_removed_count : Option Nat
  all_changed_count : Option Nat

/-- The `samples` block of the summary. -/
structure Samples where
  added : List String
  removed : List String
  changed : List String

/-- The persisted change summary; `samples` and `details` are absent from
the initialization summary. -/
structure Summary where
  status : String
  scope : Scope
  stats : Stats
  samples : Option Samples
  details : Option (List String × List String × List Changed)

/-- The files the run reads and writes: the current dataset, the baseline,
the summary, and the watchlist (as raw lines). -/
structure FS where
  current : Option FileContent
  baseline : Option FileContent
  summary : Option Summary
  watchlistFile : Option (List String)

/-- The exception a run can surface. -/
inductive RunError where
  | fileNotFound
  | parseError

/-- Outcome of one run: the resulting files, whether the diff engine ran,
and the exit (`.ok 0`) or the exception raised. -/
structure RunResult where
  fs : FS
  ranDiff : Bool
  output : Except RunError Nat

/-- `main` of `detect_changes.py` (the Telegram send, which happens after
all file writes, is outside the claims and omitted). -/
def runMain (sha1 : String → String) (fs : FS) (sample_size : Nat) : RunResult :=
  match fs.current with
  | none => { fs := fs, ranDiff := false, output := .error .fileNotFound }
  | some curFile =>
    let watchlist := load_watchlist fs.watchlistFile
    match load_geojson (some curFile) with
    | .error _ => { fs := fs, ranDiff := false, output := .error .parseError }
    | .ok current_geojson =>
      let current_idx := to_index sha1 current_geojson
      match fs.baseline with
      | none =>
        { fs := { fs with
            baseline := some curFile,
            summary := some
              { status := "initialized",
                scope := { watchlist_enabled := !watchlist.isEmpty,
                           watchlist_size := watchlist.length },
                stats := { current_total := current_idx.length,
                           previous_total := none,
                           added_count := 0, removed_count := 0, changed_count := 0,
                           all_added_count := none, all_removed_count := none,
                           all_changed_count := none },
                samples := none, details := none } },
          ranDiff := false, output := .ok 0 }
      | some baseFile =>
        match load_geojson (some baseFile) with
        | .error _ => { fs := fs, ranDiff := false, output := .error .parseError }
        | .ok previous_geojson =>
          let previous_idx := to_index sha1 previous_geojson
          let resAll := compare previous_idx current_idx
          let added_all := resAll.1
          let removed_all := resAll.2.1
          let changed_all := resAll.2.2
          let resW := filter_to_watchlist added_all removed_all changed_all watchlist
          let added := resW.1
          let removed := resW.2.1
          let changed := resW.2.2
          { fs := { fs with
              summary := some
                { status := "ok",
                  scope := { watchlist_enabled := !watchlist.isEmpty,
                             watchlist_size := watchlist.length },
                  stats := { current_total := current_idx.length,
                             previous_total := some previous_idx.length,
                             added_count := added.length,
                             removed_count := removed.length,
                             changed_count := changed.length,
                             all_added_count := some added_all.length,
                             all_removed_count := some removed_all.length,
                             all_changed_count := some changed_all.length },
                  samples := some
                    { added := added.take sample_size,
                      removed := removed.take sample_size,
                      changed := (changed.take sample_size).map Changed.parcel_id },
                  details := some (added, removed, changed) },
              baseline := some curFile },
            ranDiff := true, output := .ok 0 }

mutual
/-- A parsed JSON value is well formed when every object in it has
duplicate-free keys — true of everything `json.loads` can produce. -/
def WFJson : Json → Bool
  | .null => true
  | .bool _ => true
  | .num _ => true
  | .str _ => true
  | .arr xs => WFList xs
  | .obj fs => decide ((fs.map Prod.fst).Nodup) && WFFields fs

/-- Well-formedness of every element of a JSON array. -/
def WFList : List Json → Bool
  | [] => true
  | x :: xs => WFJson x && WFList xs

/-- Well-formedness of every value of a JSON object. -/
def WFFields : List (String × Json) → Bool
  | [] => true
  | (_, v) :: fs => WFJson v && WFFields fs
end

/-- A snapshot whose stored attribute values are well-formed parsed JSON:
every snapshot the indexer builds from parsed data is such. -/
def WFIndex (S : Index) : Prop :=
  ∀ p ∈ S, ∀ q ∈ (p.2).properties, WFJson q.2 = true

/-- `KeyPerm g h`: `h` is `g` with the fields of some of its objects
(mappings: duplicate-free keys) permuted, at any nesting level. -/
inductive KeyPerm : Json → Json → Prop where
  | refl (g : Json) : KeyPerm g g
  | trans {a b c : Json} : KeyPerm a b → KeyPerm b c → KeyPerm a c
  | arrCons {x y : Json} {xs ys : List Json} :
      KeyPerm x y → KeyPerm (.arr xs) (.arr ys) →
      KeyPerm (.arr (x :: xs)) (.arr (y :: ys))
  | objCons {k : String} {v w : Json} {fs gs : List (String × Json)} :
      KeyPerm v w → KeyPerm (.obj fs) (.obj gs) →
      KeyPerm (.obj ((k, v) :: fs)) (.obj ((k, w) :: gs))
  | objPerm {fs gs : List (String × Json)} :
      fs.Perm gs → (fs.map Prod.fst).Nodup → KeyPerm (.obj fs) (.obj gs)

/-! ### Order lemmas for the lexicographic string comparison -/

theorem charListLt_irrefl : ∀ l : List Char, charListLt l l = false
  | [] => rfl
  | c :: cs => by
    simp [charListLt, charListLt_irrefl cs]

theorem charListLt_trans :
    ∀ a b c : List Char, charListLt a b = true → charListLt b c = true →
      charListLt a c = true := by
  intro a
  induction a with
  | nil =>
    intro b c h1 h2
    cases b with
    | nil => simp [charListLt] at h1
    | cons y ys =>
      cases c with
      | nil => simp [charListLt] at h2
      | cons z zs => simp [charListLt]
  | cons x xs ih =>
    intro b c h1 h2
    cases b with
    | nil => simp [charListLt] at h1
    | cons y ys =>
      cases c with
      | nil => simp [charListLt] at h2
      | cons z zs =>
        simp only [charListLt, Bool.or_eq_true, Bool.and_eq_true,
          decide_eq_true_eq, beq_iff_eq] at h1 h2 ⊢
        rcases h1 with h1 | ⟨hxy, h1⟩
        · rcases h2 with h2 | ⟨hyz, h2⟩
          · exact Or.inl (lt_trans h1 h2)
          · exact Or.inl (hyz ▸ h1)
        · rcases h2 with h2 | ⟨hyz, h2⟩
          · exact Or.inl (hxy ▸ h2)
          · exact Or.inr ⟨hxy.trans hyz, ih ys zs h1 h2⟩

theorem charListLt_connex :
    ∀ a b : List Char, charListLt a b = false → charListLt b a = false → a = b := by
  intro a
  induction a with
  | nil =>
    intro b h1 _
    cases b with
    | nil => rfl
    | cons y ys => simp [charListLt] at h1
  | cons x xs ih =>
    intro b h1 h2
    cases b with
    | nil => simp [charListLt] at h2
    | cons y ys =>
      simp only [charListLt, Bool.or_eq_false_iff, Bool.and_eq_false_iff,
        decide_eq_false_iff_not, beq_eq_false_iff_ne, ne_eq] at h1 h2
      have hxy : x = y := le_antisymm (not_lt.mp h2.1) (not_lt.mp h1.1)
      subst hxy
      rcases h1.2 with h1c | h1c
      · exact absurd rfl h1c
      · rcases h2.2 with h2c | h2c
        · exact absurd rfl h2c
        · exact congrArg (x :: ·) (ih ys h1c h2c)

theorem strLt_irrefl (a : String) : strLt a a = false :=
  charListLt_irrefl a.data

theorem strLt_trans {a b c : String} (h1 : strLt a b = true) (h2 : strLt b c = true) :
    strLt a c = true :=
  charListLt_trans a.data b.data c.data h1 h2

theorem strLt_connex {a b : String} (h1 : strLt a b = false) (h2 : strLt b a = false) :
    a = b := by
  have := charListLt_connex a.data b.data h1 h2
  cases a; cases b; exact congrArg String.mk this

theorem strLt_asymm {a b : String} (h1 : strLt a b = true) : strLt b a = false := by
  cases h2 : strLt b a with
  | false => rfl
  | true => have := strLt_trans h1 h2; rw [strLt_irrefl a] at this; exact this.symm ▸ rfl

theorem strLE_refl (a : String) : strLE a a = true := by simp [strLE]

theorem strLE_iff {a b : String} : strLE a b = true ↔ strLt a b = true ∨ a = b := by
  simp [strLE]

theorem strLE_total (a b : String) : strLE a b = true ∨ strLE b a = true := by
  cases h1 : strLt a b with
  | true => exact Or.inl (strLE_iff.mpr (Or.inl h1))
  | false =>
    cases h2 : strLt b a with
    | true => exact Or.inr (strLE_iff.mpr (Or.inl h2))
    | false => exact Or.inl (strLE_iff.mpr (Or.inr (strLt_connex h1 h2)))

theorem strLE_trans {a b c : String} (h1 : strLE a b = true) (h2 : strLE b c = true) :
    strLE a c = true := by
  rcases strLE_iff.mp h1 with h1 | rfl
  · rcases strLE_iff.mp h2 with h2 | rfl
    · exact strLE_iff.mpr (Or.inl (strLt_trans h1 h2))
    · exact strLE_iff.mpr (Or.inl h1)
  · exact h2

theorem strLt_of_strLE_of_ne {a b : String} (h1 : strLE a b = true) (h2 : a ≠ b) :
    strLt a b = true := by
  rcases strLE_iff.mp h1 with h | rfl
  · exact h
  · exact absurd rfl h2

/-! ### Lemmas about `sortedSet` -/

theorem mem_sortedSet {x : String} {l : List String} : x ∈ sortedSet l ↔ x ∈ l :=
  ((List.perm_insertionSort strLEr l.dedup).mem_iff).trans (List.mem_dedup)

theorem nodup_sortedSet (l : List String) : (sortedSet l).Nodup :=
  ((List.perm_insertionSort strLEr l.dedup).nodup_iff).mpr (List.nodup_dedup l)

theorem sorted_le_sortedSet (l : List String) : List.Sorted strLEr (sortedSet l) := by
  haveI : IsTotal String strLEr := ⟨strLE_total⟩
  haveI : IsTrans String strLEr := ⟨fun _ _ _ => strLE_trans⟩
  exact List.sorted_insertionSort strLEr l.dedup

theorem sorted_lt_sortedSet (l : List String) : List.Sorted strLtr (sortedSet l) := by
  have hs := sorted_le_sortedSet l
  have hn := nodup_sortedSet l
  exact ((List.Pairwise.and hs hn).imp
    (fun h => strLt_of_strLE_of_ne h.1 h.2))

/-! ### Lookup and keys lemmas for association lists -/

theorem lookup_isSome_iff {β : Type} (l : List (String × β)) (k : String) :
    (l.lookup k).isSome = true ↔ k ∈ l.map Prod.fst := by
  induction l with
  | nil => simp [List.lookup]
  | cons p ps ih =>
    cases p with
    | mk a b =>
      by_cases h : k = a
      · subst h; simp [List.lookup]
      · have hne : (k == a) = false := by simpa using h
        simp only [List.lookup, hne, List.map_cons, List.mem_cons]
        simpa [h] using ih

theorem lookup_eq_some_of_isSome {β : Type} {l : List (String × β)} {k : String}
    (h : (l.lookup k).isSome = true) : ∃ v, l.lookup k = some v := by
  cases hv : l.lookup k with
  | none => rw [hv] at h; simp at h
  | some v => exact ⟨v, rfl⟩

theorem mem_of_lookup_eq_some {β : Type} {l : List (String × β)} {k : String} {v : β}
    (h : l.lookup k = some v) : (k, v) ∈ l := by
  induction l with
  | nil => simp [List.lookup] at h
  | cons p ps ih =>
    cases p with
    | mk a b =>
      by_cases hk : k = a
      · subst hk
        simp [List.lookup] at h
        simp [h]
      · have hne : (k == a) = false := by simpa using hk
        rw [List.lookup, hne] at h
        exact List.mem_cons_of_mem _ (ih h)

theorem lookup_eq_some_of_mem_nodup {β : Type} {l : List (String × β)} {k : String} {v : β}
    (hnd : (l.map Prod.fst).Nodup) (hm : (k, v) ∈ l) : l.lookup k = some v := by
  induction l with
  | nil => simp at hm
  | cons p ps ih =>
    cases p with
    | mk a b =>
      simp only [List.map_cons, List.nodup_cons, List.mem_map] at hnd
      rcases List.mem_cons.mp hm with h | h
      · rw [show k = a from congrArg Prod.fst h]
        simp [List.lookup, (Prod.mk.injEq _ _ _ _).mp h]
      · have hka : k ≠ a := by
          intro hk
          exact hnd.1 ⟨(k, v), h, by rw [hk]⟩
        have hne : (k == a) = false := by simpa using hka
        rw [List.lookup, hne]
        exact ih hnd.2 h

/-! ### Structure of the three components of `compare` -/

theorem compare_added_eq (p c : Index) :
    (compare p c).1 = sortedSet ((keys c).filter (fun k => !(keys p).contains k)) := rfl

theorem compare_removed_eq (p c : Index) :
    (compare p c).2.1 = sortedSet ((keys p).filter (fun k => !(keys c).contains k)) := rfl

theorem compare_changed_eq (p c : Index) :
    (compare p c).2.2 = (sortedSet ((keys p).filter (fun k => (keys c).contains k))).filterMap
      (fun pid =>
        match p.lookup pid, c.lookup pid with
        | some prev, some curr =>
          if (fieldChanges prev curr).isEmpty then none
          else some { parcel_id := pid, changes := fieldChanges prev curr }
        | _, _ => none) := rfl

theorem mem_compare_added {p c : Index} {k : String} :
    k ∈ (compare p c).1 ↔ k ∈ keys c ∧ k ∉ keys p := by
  rw [compare_added_eq, mem_sortedSet, List.mem_filter]
  simp

theorem mem_compare_removed {p c : Index} {k : String} :
    k ∈ (compare p c).2.1 ↔ k ∈ keys p ∧ k ∉ keys c := by
  rw [compare_removed_eq, mem_sortedSet, List.mem_filter]
  simp

theorem mem_compare_inter {p c : Index} {k : String} :
    k ∈ sortedSet ((keys p).filter (fun k => (keys c).contains k)) ↔
      k ∈ keys p ∧ k ∈ keys c := by
  rw [mem_sortedSet, List.mem_filter]
  simp

theorem mem_compare_changed {p c : Index} {e : Changed} :
    e ∈ (compare p c).2.2 ↔
      ∃ fp fc, p.lookup e.parcel_id = some fp ∧ c.lookup e.parcel_id = some fc ∧
        fieldChanges fp fc ≠ [] ∧ e.changes = fieldChanges fp fc := by
  rw [compare_changed_eq]
  constructor
  · intro h
    rcases List.mem_filterMap.mp h with ⟨pid, _, hf⟩
    rcases hp : p.lookup pid with _ | fp <;> rcases hc : c.lookup pid with _ | fc <;>
      rw [hp, hc] at hf <;> simp at hf
    rcases hf with ⟨hne, he⟩
    subst he
    exact ⟨fp, fc, hp, hc, hne, rfl⟩
  · rintro ⟨fp, fc, hp, hc, hne, he⟩
    refine List.mem_filterMap.mpr ⟨e.parcel_id, ?_, ?_⟩
    · refine mem_compare_inter.mpr ⟨?_, ?_⟩
      · exact (lookup_isSome_iff p e.parcel_id).mp (by rw [hp]; rfl)
      · exact (lookup_isSome_iff c e.parcel_id).mp (by rw [hc]; rfl)
    · rw [hp, hc]
      have hemp : (fieldChanges fp fc).isEmpty = false := by
        simpa [List.isEmpty_iff] using hne
      show (if (fieldChanges fp fc).isEmpty = true then none
        else some { parcel_id := e.parcel_id, changes := fieldChanges fp fc }) = some e
      rw [hemp]
      show some { parcel_id := e.parcel_id, changes := fieldChanges fp fc } = some e
      rw [← he]

theorem mem_compare_changed_keys {p c : Index} {k : String} :
    k ∈ (compare p c).2.2.map Changed.parcel_id ↔
      ∃ fp fc, p.lookup k = some fp ∧ c.lookup k = some fc ∧
        fieldChanges fp fc ≠ [] := by
  rw [List.mem_map]
  constructor
  · rintro ⟨e, he, rfl⟩
    rcases mem_compare_changed.mp he with ⟨fp, fc, hp, hc, hne, _⟩
    exact ⟨fp, fc, hp, hc, hne⟩
  · rintro ⟨fp, fc, hp, hc, hne⟩
    exact ⟨{ parcel_id := k, changes := fieldChanges fp fc },
      mem_compare_changed.mpr ⟨fp, fc, hp, hc, hne, rfl⟩, rfl⟩

theorem mem_keys_of_changed {p c : Index} {k : String}
    (h : k ∈ (compare p c).2.2.map Changed.parcel_id) : k ∈ keys p ∧ k ∈ keys c := by
  rcases mem_compare_changed_keys.mp h with ⟨fp, fc, hp, hc, _⟩
  exact ⟨(lookup_isSome_iff p k).mp (by rw [hp]; rfl),
    (lookup_isSome_iff c k).mp (by rw [hc]; rfl)⟩

/-- C1. For every pair of snapshots and every key in either key set, the
change set places the key in at most one of `added`, `removed`, `modified`
(so exactly one of the three, or none), and a key present in both
snapshots whose fingerprints produce no field differences never appears in
`modified`. -/
theorem compare_partition (previous current : Index) (k : String)
    (hk : k ∈ keys previous ∨ k ∈ keys current) :
    (¬ (k ∈ (compare previous current).1 ∧ k ∈ (compare previous current).2.1)) ∧
    (¬ (k ∈ (compare previous current).1 ∧
        k ∈ (compare previous current).2.2.map Changed.parcel_id)) ∧
    (¬ (k ∈ (compare previous current).2.1 ∧
        k ∈ (compare previous current).2.2.map Changed.parcel_id)) ∧
    (∀ fp fc, previous.lookup k = some fp → current.lookup k = some fc →
      fieldChanges fp fc = [] →
      k ∉ (compare previous current).2.2.map Changed.parcel_id) := by
  refine ⟨?_, ?_, ?_, ?_⟩
  · rintro ⟨ha, hr⟩
    exact (mem_compare_added.mp ha).2 (mem_compare_removed.mp hr).1
  · rintro ⟨ha, hm⟩
    exact (mem_compare_added.mp ha).2 (mem_keys_of_changed hm).1
  · rintro ⟨hr, hm⟩
    exact (mem_compare_removed.mp hr).2 (mem_keys_of_changed hm).2
  · intro fp fc hp hc hnil hm
    rcases mem_compare_changed_keys.mp hm with ⟨fp2, fc2, hp2, hc2, hne⟩
    rw [hp] at hp2
    rw [hc] at hc2
    cases Option.some.inj hp2
    cases Option.some.inj hc2
    exact hne hnil

/-- Witness for C1 at a concrete pair of snapshots. -/
theorem compare_partition_witness :
    ("1" ∈ keys [("1", ({ parcel_id := "1", geometry_hash := "g", properties := [] } : Fingerprint))] ∨
      "1" ∈ keys ([] : Index)) ∧
    (¬ ("1" ∈ (compare [("1", ({ parcel_id := "1", geometry_hash := "g", properties := [] } : Fingerprint))] ([] : Index)).1 ∧
        "1" ∈ (compare [("1", ({ parcel_id := "1", geometry_hash := "g", properties := [] } : Fingerprint))] ([] : Index)).2.1)) ∧
    (¬ ("1" ∈ (compare [("1", ({ parcel_id := "1", geometry_hash := "g", properties := [] } : Fingerprint))] ([] : Index)).1 ∧
        "1" ∈ (compare [("1", ({ parcel_id := "1", geometry_hash := "g", properties := [] } : Fingerprint))] ([] : Index)).2.2.map Changed.parcel_id)) ∧
    (¬ ("1" ∈ (compare [("1", ({ parcel_id := "1", geometry_hash := "g", properties := [] } : Fingerprint))] ([] : Index)).2.1 ∧
        "1" ∈ (compare [("1", ({ parcel_id := "1", geometry_hash := "g", properties := [] } : Fingerprint))] ([] : Index)).2.2.map Changed.parcel_id)) ∧
    (∀ fp fc,
      ([("1", ({ parcel_id := "1", geometry_hash := "g", properties := [] } : Fingerprint))] : Index).lookup "1" = some fp →
      ([] : Index).lookup "1" = some fc → fieldChanges fp fc = [] →
      "1" ∉ (compare [("1", ({ parcel_id := "1", geometry_hash := "g", properties := [] } : Fingerprint))] ([] : Index)).2.2.map Changed.parcel_id) :=
  ⟨Or.inl (by simp [keys]),
    compare_partition [("1", { parcel_id := "1", geometry_hash := "g", properties := [] })]
      ([] : Index) "1" (Or.inl (by simp [keys]))⟩

/-- C2. `added` is the sorted set difference Keys(current) − Keys(previous)
and `removed` is Keys(previous) − Keys(current), both strictly sorted in
lexicographic key order; diffing against an empty previous snapshot is
all-added, and against an empty current snapshot all-removed. -/
theorem compare_added_removed (previous current : Index) :
    (∀ k, k ∈ (compare previous current).1 ↔ k ∈ keys current ∧ k ∉ keys previous) ∧
    (∀ k, k ∈ (compare previous current).2.1 ↔ k ∈ keys previous ∧ k ∉ keys current) ∧
    List.Sorted strLtr (compare previous current).1 ∧
    List.Sorted strLtr (compare previous current).2.1 ∧
    (∀ k, k ∈ (compare ([] : Index) current).1 ↔ k ∈ keys current) ∧
    (compare ([] : Index) current).2.1 = [] ∧
    (compare ([] : Index) current).2.2 = [] ∧
    (∀ k, k ∈ (compare previous ([] : Index)).2.1 ↔ k ∈ keys previous) ∧
    (compare previous ([] : Index)).1 = [] ∧
    (compare previous ([] : Index)).2.2 = [] := by
  refine ⟨fun k => mem_compare_added, fun k => mem_compare_removed, ?_, ?_, ?_, rfl, rfl,
    ?_, ?_, ?_⟩
  · rw [compare_added_eq]; exact sorted_lt_sortedSet _
  · rw [compare_removed_eq]; exact sorted_lt_sortedSet _
  · intro k
    rw [mem_compare_added]
    simp [keys]
  · intro k
    rw [mem_compare_removed]
    simp [keys]
  · rfl
  · rw [compare_changed_eq]
    have : (keys previous).filter (fun k => (keys ([] : Index)).contains k) = [] := by
      apply List.filter_eq_nil_iff.mpr
      intro a _
      simp [keys]
    rw [this]
    rfl

/-! ### Field-difference characterization (C3) -/

theorem map_filterMap_eq_filter {α β : Type} (f : α → Option β) (g : β → α)
    (hfg : ∀ a b, f a = some b → g b = a) (l : List α) :
    (l.filterMap f).map g = l.filter (fun a => (f a).isSome) := by
  induction l with
  | nil => rfl
  | cons x xs ih =>
    cases hx : f x with
    | none => simp [List.filterMap_cons, hx, ih, List.filter_cons]
    | some b => simp [List.filterMap_cons, hx, List.filter_cons, hfg x b hx, ih]

theorem geometry_not_compare_field : "geometry" ∉ COMPARE_FIELDS := by decide

theorem mem_fieldChanges_geometry {prev curr : Fingerprint} {b a : Json} :
    ("geometry", b, a) ∈ fieldChanges prev curr ↔
      prev.geometry_hash ≠ curr.geometry_hash ∧
      b = .str prev.geometry_hash ∧ a = .str curr.geometry_hash := by
  unfold fieldChanges
  rw [List.mem_append]
  constructor
  · intro h
    rcases h with h | h
    · by_cases hg : prev.geometry_hash = curr.geometry_hash
      · rw [if_neg (by simpa using hg)] at h
        simp at h
      · rw [if_pos hg] at h
        simp at h
        exact ⟨hg, h.1, h.2⟩
    · exfalso
      rcases List.mem_filterMap.mp h with ⟨k, hk, hsome⟩
      by_cases he : pyEq (pget prev.properties k) (pget curr.properties k)
      · rw [if_pos he] at hsome; exact Option.noConfusion hsome
      · rw [if_neg he] at hsome
        have : k = "geometry" := (Prod.mk.injEq _ _ _ _).mp (Option.some.inj hsome) |>.1
        exact geometry_not_compare_field (this ▸ hk)
  · rintro ⟨hg, rfl, rfl⟩
    left
    rw [if_pos hg]
    simp

theorem mem_fieldChanges_attr {prev curr : Fingerprint} {f : String}
    (hf : f ∈ COMPARE_FIELDS) {b a : Json} :
    (f, b, a) ∈ fieldChanges prev curr ↔
      pyEq (pget prev.properties f) (pget curr.properties f) = false ∧
      b = pget prev.properties f ∧ a = pget curr.properties f := by
  have hfg : f ≠ "geometry" := fun h => geometry_not_compare_field (h ▸ hf)
  unfold fieldChanges
  rw [List.mem_append]
  constructor
  · intro h
    rcases h with h | h
    · exfalso
      by_cases hg : prev.geometry_hash = curr.geometry_hash
      · rw [if_neg (by simpa using hg)] at h
        simp at h
      · rw [if_pos hg] at h
        simp at h
        exact hfg h.1
    · rcases List.mem_filterMap.mp h with ⟨k, hk, hsome⟩
      by_cases he : pyEq (pget prev.properties k) (pget curr.properties k)
      · rw [if_pos he] at hsome; exact Option.noConfusion hsome
      · rw [if_neg he] at hsome
        have hinj := (Prod.mk.injEq _ _ _ _).mp (Option.some.inj hsome)
        rcases hinj with ⟨rfl, hba⟩
        have hba2 := (Prod.mk.injEq _ _ _ _).mp hba
        exact ⟨Bool.not_eq_true _ ▸ (by simpa using he), hba2.1.symm, hba2.2.symm⟩
  · rintro ⟨hne, rfl, rfl⟩
    right
    refine List.mem_filterMap.mpr ⟨f, hf, ?_⟩
    rw [if_neg (by simp [hne])]

theorem fieldChanges_keys_sublist (prev curr : Fingerprint) :
    List.Sublist ((fieldChanges prev curr).map (fun d => d.1)) ("geometry" :: COMPARE_FIELDS) := by
  unfold fieldChanges
  rw [List.map_append]
  have h2 : ((COMPARE_FIELDS.filterMap (fun k =>
      if pyEq (pget prev.properties k) (pget curr.properties k)
      then none
      else some (k, pget prev.properties k, pget curr.properties k))).map (fun d => d.1))
      = COMPARE_FIELDS.filter (fun k => (if pyEq (pget prev.properties k) (pget curr.properties k)
          then none
          else some (k, pget prev.properties k, pget curr.properties k)).isSome) := by
    apply map_filterMap_eq_filter
    intro k e he
    by_cases hk : pyEq (pget prev.properties k) (pget curr.properties k)
    · rw [if_pos hk] at he; exact Option.noConfusion he
    · rw [if_neg hk] at he
      rw [← Option.some.inj he]
  rw [h2]
  by_cases hg : prev.geometry_hash = curr.geometry_hash
  · rw [if_neg (by simpa using hg)]
    simp only [List.map_nil, List.nil_append]
    exact (COMPARE_FIELDS.filter_sublist).trans (List.sublist_cons_self _ _)
  · rw [if_pos hg]
    simp only [List.map_cons, List.map_nil, List.singleton_append]
    exact List.Sublist.cons₂ _ (COMPARE_FIELDS.filter_sublist)

theorem compare_changed_keys_filter (p c : Index) :
    (compare p c).2.2.map Changed.parcel_id =
      (sortedSet ((keys p).filter (fun k => (keys c).contains k))).filter
        (fun pid =>
          match p.lookup pid, c.lookup pid with
          | some prev, some curr => !(fieldChanges prev curr).isEmpty
          | _, _ => false) := by
  rw [compare_changed_eq]
  rw [map_filterMap_eq_filter _ Changed.parcel_id (by
    intro pid e he
    rcases hp : p.lookup pid with _ | fp <;> rcases hc : c.lookup pid with _ | fc <;>
      rw [hp, hc] at he <;> simp at he
    rcases he with ⟨_, he⟩
    rw [← he])]
  apply List.filter_congr
  intro pid _
  rcases hp : p.lookup pid with _ | fp <;> rcases hc : c.lookup pid with _ | fc <;>
    simp [hp, hc]
  by_cases hemp : (fieldChanges fp fc).isEmpty <;> simp [hemp]

theorem nodup_compare_changed_keys (p c : Index) :
    ((compare p c).2.2.map Changed.parcel_id).Nodup := by
  rw [compare_changed_keys_filter]
  exact (nodup_sortedSet _).filter _

theorem sorted_compare_changed_keys (p c : Index) :
    List.Sorted strLtr ((compare p c).2.2.map Changed.parcel_id) := by
  rw [compare_changed_keys_filter]
  exact List.Pairwise.filter _ (sorted_lt_sortedSet _)

/-- C3. For a key present in both snapshots (fingerprints obtained by
lookup), the diff records the `geometry` pseudo-field difference carrying
the before/after digests iff the digests differ; records a difference for
an attribute of the fixed field list, carrying before/after values, iff
the values differ; lists the recorded differences in the fixed order
(`geometry` first, then the attribute list order); emits exactly one
`modified` entry for the key iff at least one difference was recorded,
whose content is exactly the recorded differences; and processes the
modified keys in lexicographic key order. -/
theorem compare_modified_spec (previous current : Index) (pid : String)
    (fp fc : Fingerprint)
    (hp : previous.lookup pid = some fp) (hc : current.lookup pid = some fc) :
    (∀ b a, ("geometry", b, a) ∈ fieldChanges fp fc ↔
      fp.geometry_hash ≠ fc.geometry_hash ∧
      b = .str fp.geometry_hash ∧ a = .str fc.geometry_hash) ∧
    (∀ f ∈ COMPARE_FIELDS, ∀ b a, ((f, b, a) ∈ fieldChanges fp fc ↔
      pyEq (pget fp.properties f) (pget fc.properties f) = false ∧
      b = pget fp.properties f ∧ a = pget fc.properties f)) ∧
    List.Sublist ((fieldChanges fp fc).map (fun d => d.1)) ("geometry" :: COMPARE_FIELDS) ∧
    (fieldChanges fp fc = [] →
      ((compare previous current).2.2.map Changed.parcel_id).count pid = 0) ∧
    (fieldChanges fp fc ≠ [] →
      ((compare previous current).2.2.map Changed.parcel_id).count pid = 1) ∧
    (∀ e ∈ (compare previous current).2.2, e.parcel_id = pid →
      e.changes = fieldChanges fp fc) ∧
    List.Sorted strLtr ((compare previous current).2.2.map Changed.parcel_id) := by
  refine ⟨fun b a => mem_fieldChanges_geometry,
    fun f hf b a => mem_fieldChanges_attr hf,
    fieldChanges_keys_sublist fp fc, ?_, ?_, ?_, sorted_compare_changed_keys previous current⟩
  · intro hnil
    apply List.count_eq_zero_of_not_mem
    intro hm
    rcases mem_compare_changed_keys.mp hm with ⟨fp2, fc2, hp2, hc2, hne⟩
    rw [hp] at hp2
    rw [hc] at hc2
    cases Option.some.inj hp2
    cases Option.some.inj hc2
    exact hne hnil
  · intro hnil
    exact List.count_eq_one_of_mem (nodup_compare_changed_keys previous current)
      (mem_compare_changed_keys.mpr ⟨fp, fc, hp, hc, hnil⟩)
  · intro e he hpid
    rcases mem_compare_changed.mp he with ⟨fp2, fc2, hp2, hc2, _, hch⟩
    rw [hpid] at hp2 hc2
    rw [hp] at hp2
    rw [hc] at hc2
    cases Option.some.inj hp2
    cases Option.some.inj hc2
    exact hch

/-- Witness for C3 at a concrete pair of snapshots differing in `STREET`. -/
theorem compare_modified_spec_witness :
    (([("1", ({ parcel_id := "1", geometry_hash := "g", properties := [("STREET", Json.str "Main St")] } : Fingerprint))] : Index).lookup "1" =
      some { parcel_id := "1", geometry_hash := "g", properties := [("STREET", Json.str "Main St")] }) ∧
    (([("1", ({ parcel_id := "1", geometry_hash := "g", properties := [("STREET", Json.str "1st St")] } : Fingerprint))] : Index).lookup "1" =
      some { parcel_id := "1", geometry_hash := "g", properties := [("STREET", Json.str "1st St")] }) ∧
    ((compare
        [("1", { parcel_id := "1", geometry_hash := "g", properties := [("STREET", Json.str "Main St")] })]
        [("1", { parcel_id := "1", geometry_hash := "g", properties := [("STREET", Json.str "1st St")] })]).2.2.map
        Changed.parcel_id).count "1" = 1 := by
  refine ⟨rfl, rfl, ?_⟩
  have h := compare_modified_spec
    [("1", { parcel_id := "1", geometry_hash := "g", properties := [("STREET", Json.str "Main St")] })]
    [("1", { parcel_id := "1", geometry_hash := "g", properties := [("STREET", Json.str "1st St")] })]
    "1" _ _ rfl rfl
  apply h.2.2.2.2.1
  simp [fieldChanges, COMPARE_FIELDS, pget, List.lookup, pyEq]

/-! ### Reflexivity of Python equality on well-formed values (C4) -/

theorem WFList_mem {xs : List Json} (h : WFList xs = true) {x : Json} (hx : x ∈ xs) :
    WFJson x = true := by
  induction xs with
  | nil => simp at hx
  | cons y ys ih =>
    rw [WFList, Bool.and_eq_true] at h
    rcases List.mem_cons.mp hx with rfl | hx2
    · exact h.1
    · exact ih h.2 hx2

theorem WFFields_mem {fs : List (String × Json)} (h : WFFields fs = true)
    {p : String × Json} (hp : p ∈ fs) : WFJson p.2 = true := by
  induction fs with
  | nil => simp at hp
  | cons q qs ih =>
    cases q with
    | mk k v =>
      rw [WFFields, Bool.and_eq_true] at h
      rcases List.mem_cons.mp hp with rfl | hp2
      · exact h.1
      · exact ih h.2 hp2

theorem pyEqList_refl_aux (xs : List Json) (h : ∀ x ∈ xs, pyEq x x = true) :
    pyEqList xs xs = true := by
  induction xs with
  | nil => rfl
  | cons y ys ih =>
    rw [pyEqList, Bool.and_eq_true]
    exact ⟨h y (by simp), ih (fun x hx => h x (by simp [hx]))⟩

theorem pyEqFields_refl_aux (gs fs : List (String × Json))
    (h : ∀ p ∈ fs, gs.lookup p.1 = some p.2 ∧ pyEq p.2 p.2 = true) :
    pyEqFields gs fs = true := by
  induction fs with
  | nil => rfl
  | cons q qs ih =>
    cases q with
    | mk k v =>
      rw [pyEqFields, Bool.and_eq_true]
      constructor
      · rw [(h (k, v) (by simp)).1]
        exact (h (k, v) (by simp)).2
      · exact ih (fun p hp => h p (by simp [hp]))

theorem pyEq_refl_sized : ∀ n : Nat, ∀ g : Json, sizeOf g < n → WFJson g = true →
    pyEq g g = true := by
  intro n
  induction n with
  | zero => intro g hg _; exact absurd hg (by omega)
  | succ n ih =>
    intro g hg hwf
    cases g with
    | null => rfl
    | bool b => simp [pyEq]
    | num m => simp [pyEq]
    | str s => simp [pyEq]
    | arr xs =>
      rw [pyEq]
      apply pyEqList_refl_aux
      intro x hx
      have hsz : sizeOf x < n := by
        have h1 := List.sizeOf_lt_of_mem hx
        have h2 : sizeOf (Json.arr xs) = 1 + sizeOf xs := by simp
        omega
      exact ih x hsz (WFList_mem (by simpa [WFJson] using hwf) hx)
    | obj fs =>
      rw [pyEq, Bool.and_eq_true]
      rw [WFJson, Bool.and_eq_true, decide_eq_true_eq] at hwf
      refine ⟨by simp, ?_⟩
      apply pyEqFields_refl_aux
      intro p hp
      refine ⟨lookup_eq_some_of_mem_nodup hwf.1 (by simpa using hp), ?_⟩
      have hsz : sizeOf p.2 < n := by
        have h1 := List.sizeOf_lt_of_mem hp
        have h2 : sizeOf (Json.obj fs) = 1 + sizeOf fs := by simp
        have h3 : sizeOf p = 1 + sizeOf p.1 + sizeOf p.2 := by
          cases p; simp
        omega
      exact ih p.2 hsz (WFFields_mem hwf.2 hp)

theorem pyEq_refl {g : Json} (h : WFJson g = true) : pyEq g g = true :=
  pyEq_refl_sized (sizeOf g + 1) g (by omega) h

theorem fieldChanges_self (fp : Fingerprint)
    (h : ∀ q ∈ fp.properties, WFJson q.2 = true) : fieldChanges fp fp = [] := by
  unfold fieldChanges
  rw [if_neg (by simp)]
  rw [List.nil_append]
  apply List.filterMap_eq_nil_iff.mpr
  intro k _
  rw [if_pos ?hq]
  case hq =>
    unfold pget
    cases hv : fp.properties.lookup k with
    | none => rfl
    | some v =>
      rw [Option.getD_some]
      exact pyEq_refl (h (k, v) (mem_of_lookup_eq_some hv))

/-- C4. Diffing any snapshot against itself yields empty `added`, empty
`removed` and empty `modified` (snapshots hold well-formed parsed values). -/
theorem compare_self (S : Index) (hwf : WFIndex S) : compare S S = ([], [], []) := by
  have ha : (compare S S).1 = [] := by
    rw [compare_added_eq]
    have h0 : (keys S).filter (fun k => !(keys S).contains k) = [] := by
      apply List.filter_eq_nil_iff.mpr
      intro a ha
      simp [ha]
    rw [h0]
    rfl
  have hr : (compare S S).2.1 = [] := by
    rw [compare_removed_eq]
    have h0 : (keys S).filter (fun k => !(keys S).contains k) = [] := by
      apply List.filter_eq_nil_iff.mpr
      intro a ha
      simp [ha]
    rw [h0]
    rfl
  have hc : (compare S S).2.2 = [] := by
    rw [compare_changed_eq]
    apply List.filterMap_eq_nil_iff.mpr
    intro pid hpid
    have hks := (mem_compare_inter.mp hpid).1
    obtain ⟨fp, hfp⟩ := lookup_eq_some_of_isSome ((lookup_isSome_iff S pid).mpr hks)
    rw [hfp]
    have hfz : fieldChanges fp fp = [] :=
      fieldChanges_self fp (fun q hq => hwf (pid, fp) (mem_of_lookup_eq_some hfp) q hq)
    simp [hfz]
  calc compare S S = ((compare S S).1, (compare S S).2.1, (compare S S).2.2) := rfl
    _ = ([], [], []) := by rw [ha, hr, hc]

/-- Witness for C4 at a concrete snapshot. -/
theorem compare_self_witness :
    WFIndex [("1", { parcel_id := "1", geometry_hash := "g", properties := [("STREET", Json.str "Main St")] })] ∧
    compare
      [("1", { parcel_id := "1", geometry_hash := "g", properties := [("STREET", Json.str "Main St")] })]
      [("1", { parcel_id := "1", geometry_hash := "g", properties := [("STREET", Json.str "Main St")] })] = ([], [], []) := by
  have hwf : WFIndex [("1", ({ parcel_id := "1", geometry_hash := "g", properties := [("STREET", Json.str "Main St")] } : Fingerprint))] := by
    intro p hp q hq
    simp at hp
    subst hp
    simp at hq
    subst hq
    rfl
  exact ⟨hwf, compare_self _ hwf⟩

/-! ### Watchlist filter (C6, C7) -/

/-- C6. With a non-empty watchlist, each of the three result lists holds
exactly the input entries whose key belongs to the watchlist (so every key
in the result is watched), and each result list is a sublist of its input
(relative order preserved). -/
theorem filter_to_watchlist_spec (added removed : List String) (changed : List Changed)
    (watchlist : List String) (hw : watchlist ≠ []) :
    (∀ k, k ∈ (filter_to_watchlist added removed changed watchlist).1 ↔
      k ∈ added ∧ k ∈ watchlist) ∧
    (∀ k, k ∈ (filter_to_watchlist added removed changed watchlist).2.1 ↔
      k ∈ removed ∧ k ∈ watchlist) ∧
    (∀ e, e ∈ (filter_to_watchlist added removed changed watchlist).2.2 ↔
      e ∈ changed ∧ e.parcel_id ∈ watchlist) ∧
    List.Sublist (filter_to_watchlist added removed changed watchlist).1 added ∧
    List.Sublist (filter_to_watchlist added removed changed watchlist).2.1 removed ∧
    List.Sublist (filter_to_watchlist added removed changed watchlist).2.2 changed := by
  have hne : watchlist.isEmpty = false := by simpa [List.isEmpty_iff] using hw
  unfold filter_to_watchlist
  rw [if_neg (by simp [hne])]
  refine ⟨?_, ?_, ?_, List.filter_sublist _, List.filter_sublist _, List.filter_sublist _⟩
  · intro k
    rw [List.mem_filter]
    simp
  · intro k
    rw [List.mem_filter]
    simp
  · intro e
    rw [List.mem_filter]
    simp

/-- Witness for C6 at a concrete change set and watchlist. -/
theorem filter_to_watchlist_spec_witness :
    ((["2"] : List String) ≠ []) ∧
    (∀ k, k ∈ (filter_to_watchlist ["1", "2"] ["3"] [] ["2"]).1 ↔
      k ∈ ["1", "2"] ∧ k ∈ ["2"]) ∧
    (∀ k, k ∈ (filter_to_watchlist ["1", "2"] ["3"] [] ["2"]).2.1 ↔
      k ∈ ["3"] ∧ k ∈ ["2"]) := by
  have h := filter_to_watchlist_spec ["1", "2"] ["3"] [] ["2"] (by simp)
  exact ⟨by simp, h.1, h.2.1⟩

/-- C7. Applying the watchlist filter with an empty watchlist returns the
change set unchanged. -/
theorem filter_to_watchlist_empty (added removed : List String) (changed : List Changed) :
    filter_to_watchlist added removed changed [] = (added, removed, changed) := rfl

/-! ### The indexer skips entities with falsy keys (C10) -/

theorem to_index_aux_skip (sha1 : String → String) (pre post : List Feature)
    (ft : Feature) (h : isFalsy (pget ft.properties "PARCEL_ID") = true) :
    ∀ idx : Index,
      to_index_aux sha1 (pre ++ ft :: post) idx = to_index_aux sha1 (pre ++ post) idx := by
  induction pre with
  | nil =>
    intro idx
    rw [List.nil_append, List.nil_append, to_index_aux]
    simp [h]
  | cons g gs ih =>
    intro idx
    rw [List.cons_append, List.cons_append, to_index_aux, to_index_aux]
    by_cases hg : isFalsy (pget g.properties "PARCEL_ID") = true
    · simp only [hg, if_true]
      exact ih idx
    · simp only [hg, if_false]
      exact ih _

/-- C10. An entity whose `PARCEL_ID` property is present but falsy (for
example the number `0`, the empty string, or `null`) is excluded from the
snapshot; the decision is by Python truthiness of the raw value, not by
emptiness of the stringified key — in particular `0` stringifies to the
non-empty key `"0"` yet is dropped. -/
theorem to_index_skips_falsy (sha1 : String → String) (pre post : List Feature)
    (ft : Feature) (v : Json)
    (hv : ft.properties.lookup "PARCEL_ID" = some v) (hf : isFalsy v = true) :
    to_index sha1 { features := pre ++ ft :: post } =
      to_index sha1 { features := pre ++ post } ∧
    pyStr (Json.num 0) = "0" ∧ isFalsy (Json.num 0) = true := by
  refine ⟨?_, ?_, rfl⟩
  · unfold to_index
    apply to_index_aux_skip
    unfold pget
    rw [hv, Option.getD_some]
    exact hf
  · simp [pyStr, pyRepr]
    rfl

/-- Witness for C10: a feature whose parcel id is the number `0` is
dropped from the index. -/
theorem to_index_skips_falsy_witness :
    (({ geometry := Json.null, properties := [("PARCEL_ID", Json.num 0)] } : Feature).properties.lookup
      "PARCEL_ID" = some (Json.num 0)) ∧
    isFalsy (Json.num 0) = true ∧
    to_index (fun _ => "")
        { features := [{ geometry := Json.null, properties := [("PARCEL_ID", Json.num 0)] }] } =
      to_index (fun _ => "") { features := [] } := by
  have h := to_index_skips_falsy (fun _ => "") [] []
    { geometry := Json.null, properties := [("PARCEL_ID", Json.num 0)] }
    (Json.num 0) rfl rfl
  exact ⟨rfl, rfl, h.1⟩

/-! ### Digest stability under key permutation (C5) -/

theorem canonFields_map : ∀ fs : List (String × Json),
    canonFields fs = fs.map (fun p => (p.1, canon p.2)) := by
  intro fs
  induction fs with
  | nil => rfl
  | cons p ps ih =>
    cases p with
    | mk k v => simp [canonFields, ih]

theorem canonFields_keys (fs : List (String × Json)) :
    (canonFields fs).map Prod.fst = fs.map Prod.fst := by
  rw [canonFields_map, List.map_map]
  rfl

theorem sortFields_eq_of_perm {l1 l2 : List (String × Json)} (h : l1.Perm l2)
    (hnd : (l1.map Prod.fst).Nodup) : sortFields l1 = sortFields l2 := by
  haveI : IsTotal (String × Json) keyLE := ⟨fun p q => strLE_total p.1 q.1⟩
  haveI : IsTrans (String × Json) keyLE := ⟨fun _ _ _ => strLE_trans⟩
  haveI : IsAntisymm (String × Json) keyLT :=
    ⟨fun p q h1 h2 => absurd h2 (by simp [keyLT, strLtr, strLt_asymm h1])⟩
  have hp1 : List.Perm (sortFields l1) l1 := List.perm_insertionSort keyLE l1
  have hp2 : List.Perm (sortFields l2) l2 := List.perm_insertionSort keyLE l2
  have hp : List.Perm (sortFields l1) (sortFields l2) := hp1.trans (h.trans hp2.symm)
  have hnd2 : (l2.map Prod.fst).Nodup := ((h.map Prod.fst).nodup_iff).mp hnd
  have hs1 : List.Sorted keyLE (sortFields l1) := List.sorted_insertionSort keyLE l1
  have hs2 : List.Sorted keyLE (sortFields l2) := List.sorted_insertionSort keyLE l2
  have hnds1 : ((sortFields l1).map Prod.fst).Nodup := ((hp1.map Prod.fst).nodup_iff).mpr hnd
  have hnds2 : ((sortFields l2).map Prod.fst).Nodup := ((hp2.map Prod.fst).nodup_iff).mpr hnd2
  have hlt1 : List.Sorted keyLT (sortFields l1) := by
    have hne := (List.pairwise_map).mp hnds1
    exact (hs1.and hne).imp (fun hb => strLt_of_strLE_of_ne hb.1 hb.2)
  have hlt2 : List.Sorted keyLT (sortFields l2) := by
    have hne := (List.pairwise_map).mp hnds2
    exact (hs2.and hne).imp (fun hb => strLt_of_strLE_of_ne hb.1 hb.2)
  exact List.eq_of_perm_of_sorted hp hlt1 hlt2

theorem keyPerm_canon {g1 g2 : Json} (h : KeyPerm g1 g2) : canon g1 = canon g2 := by
  induction h with
  | refl g => rfl
  | trans h1 h2 ih1 ih2 => exact ih1.trans ih2
  | arrCons hx hxs ihx ihxs =>
    simp only [canon, canonList]
    have hxs2 := by simpa [canon] using ihxs
    rw [ihx, hxs2]
  | objCons hv hfs ihv ihfs =>
    simp only [canon, canonFields, sortFields, List.insertionSort]
    have h2 := by simpa [canon, sortFields] using ihfs
    rw [ihv, h2]
  | objPerm hperm hnd =>
    simp only [canon]
    apply congrArg
    apply sortFields_eq_of_perm
    · rw [canonFields_map, canonFields_map]
      exact hperm.map _
    · rw [canonFields_keys]
      exact hnd

/-- C5. Permuting the keys of a geometry payload (at any nesting level)
does not change the computed `shape_digest`: the canonical sorted-key
serialization is invariant, so any digest function of it is too. -/
theorem geometry_hash_stable (sha1 : String → String) (f1 f2 : Feature)
    (h : KeyPerm f1.geometry f2.geometry) :
    geometry_hash sha1 f1 = geometry_hash sha1 f2 := by
  unfold geometry_hash dumps
  rw [keyPerm_canon h]

/-- Witness for C5: swapping the two fields of a concrete geometry object
leaves the digest unchanged. -/
theorem geometry_hash_stable_witness :
    KeyPerm
      (Json.obj [("type", Json.str "Point"), ("coordinates", Json.arr [Json.num 1, Json.num 2])])
      (Json.obj [("coordinates", Json.arr [Json.num 1, Json.num 2]), ("type", Json.str "Point")]) ∧
    geometry_hash (fun s => s)
        { geometry := Json.obj [("type", Json.str "Point"),
            ("coordinates", Json.arr [Json.num 1, Json.num 2])], properties := [] } =
      geometry_hash (fun s => s)
        { geometry := Json.obj [("coordinates", Json.arr [Json.num 1, Json.num 2]),
            ("type", Json.str "Point")], properties := [] } := by
  have hk : KeyPerm
      (Json.obj [("type", Json.str "Point"), ("coordinates", Json.arr [Json.num 1, Json.num 2])])
      (Json.obj [("coordinates", Json.arr [Json.num 1, Json.num 2]), ("type", Json.str "Point")]) :=
    KeyPerm.objPerm (List.Perm.swap _ _ _) (by decide)
  exact ⟨hk, geometry_hash_stable _ _ _ hk⟩

/-! ### Orchestrator: initialization and failure paths (C8, C9) -/

/-- C8 counterexample: a run with no baseline file whose current dataset is
malformed does not take the initialization path — the baseline is not
seeded, no summary is written, and the run fails. -/
theorem run_init_counterexample :
    (runMain (fun s => s)
      { current := some .bad, baseline := none, summary := none, watchlistFile := none }
      10).fs.baseline = none ∧
    (runMain (fun s => s)
      { current := some .bad, baseline := none, summary := none, watchlistFile := none }
      10).fs.summary = none ∧
    (runMain (fun s => s)
      { current := some .bad, baseline := none, summary := none, watchlistFile := none }
      10).output = .error .parseError :=
  ⟨rfl, rfl, rfl⟩

/-- C8 (amended). For every run in which no baseline file exists and the
current dataset file exists and parses, the run takes the initialization
path and no other: the baseline is seeded as an exact copy of the current
dataset file, the persisted summary has status `initialized` with zero
added/removed/changed counts, the diff engine is never invoked, and the
run ends successfully there. -/
theorem run_initializes_when_no_baseline (sha1 : String → String) (fs : FS)
    (g : GeoJson) (n : Nat)
    (hc : fs.current = some (.geo g)) (hb : fs.baseline = none) :
    (runMain sha1 fs n).fs.baseline = fs.current ∧
    (∃ s, (runMain sha1 fs n).fs.summary = some s ∧ s.status = "initialized" ∧
      s.stats.added_count = 0 ∧ s.stats.removed_count = 0 ∧ s.stats.changed_count = 0) ∧
    (runMain sha1 fs n).ranDiff = false ∧
    (runMain sha1 fs n).output = .ok 0 := by
  rcases fs with ⟨cur, base, summ, wl⟩
  simp only at hc hb
  subst hc
  subst hb
  exact ⟨rfl, ⟨_, rfl, rfl, rfl, rfl, rfl⟩, rfl, rfl⟩

/-- Witness for the amended C8 at a concrete state. -/
theorem run_initializes_when_no_baseline_witness :
    (({ current := some (.geo { features := [] }), baseline := none, summary := none,
        watchlistFile := none } : FS).current = some (.geo { features := [] })) ∧
    (({ current := some (.geo { features := [] }), baseline := none, summary := none,
        watchlistFile := none } : FS).baseline = none) ∧
    (runMain (fun s => s)
      { current := some (.geo { features := [] }), baseline := none, summary := none,
        watchlistFile := none } 10).fs.baseline = some (.geo { features := [] }) ∧
    (runMain (fun s => s)
      { current := some (.geo { features := [] }), baseline := none, summary := none,
        watchlistFile := none } 10).ranDiff = false := by
  have h := run_initializes_when_no_baseline (fun s => s)
    { current := some (.geo { features := [] }), baseline := none, summary := none,
      watchlistFile := none }
    { features := [] } 10 rfl rfl
  exact ⟨rfl, rfl, h.1, h.2.2.1⟩

/-- C9. A run whose current dataset or baseline file holds malformed
content fails with an error surfaced to the caller, and neither the
summary file nor the baseline file is modified — indeed no file is. -/
theorem run_no_partial_write (sha1 : String → String) (fs : FS) (n : Nat)
    (h : fs.current = some .bad ∨ fs.baseline = some .bad) :
    (runMain sha1 fs n).fs.summary = fs.summary ∧
    (runMain sha1 fs n).fs.baseline = fs.baseline ∧
    ∃ e, (runMain sha1 fs n).output = .error e := by
  rcases fs with ⟨cur, base, summ, wl⟩
  simp only at h
  rcases h with h | h
  · subst h
    exact ⟨rfl, rfl, .parseError, rfl⟩
  · subst h
    cases cur with
    | none => exact ⟨rfl, rfl, .fileNotFound, rfl⟩
    | some c =>
      cases c with
      | geo g => exact ⟨rfl, rfl, .parseError, rfl⟩
      | bad => exact ⟨rfl, rfl, .parseError, rfl⟩

/-- Witness for C9 at a concrete state with a malformed current dataset. -/
theorem run_no_partial_write_witness :
    (({ current := some .bad, baseline := some (.geo { features := [] }), summary := none,
        watchlistFile := none } : FS).current = some .bad ∨
      ({ current := some .bad, baseline := some (.geo { features := [] }), summary := none,
         watchlistFile := none } : FS).baseline = some .bad) ∧
    (runMain (fun s => s)
      { current := some .bad, baseline := some (.geo { features := [] }), summary := none,
        watchlistFile := none } 10).fs.summary = none ∧
    (∃ e, (runMain (fun s => s)
      { current := some .bad, baseline := some (.geo { features := [] }), summary := none,
        watchlistFile := none } 10).output = .error e) := by
  have h := run_no_partial_write (fun s => s)
    { current := some .bad, baseline := some (.geo { features := [] }), summary := none,
      watchlistFile := none } 10 (Or.inl rfl)
  exact ⟨Or.inl rfl, h.1, h.2.2⟩

end DetectChanges
